import Mathlib

/-!
Verification of the misFinanzasWeb personal-finance tracker.

The TypeScript sources are shallowly embedded: JS numbers used for money
are modelled as exact rationals (ℚ); JSON values as an inductive `Json`;
`localStorage` as a partial map from keys to stored JSON values (the
`JSON.stringify`/`JSON.parse` pair between values and stored text is the
identity bijection on well-formed data and is elided); React state updates
become explicit state passing.
-/

namespace MisFinanzas

/-! ### Domain model, from `src/types.ts` -/

inductive TransactionType where
  | income
  | expense
deriving DecidableEq

structure Transaction where
  id : String
  description : String
  amount : ℚ
  date : String
  type : TransactionType
deriving DecidableEq

structure Account where
  id : String
  name : String
  transactions : List Transaction
deriving DecidableEq

@[ext]
structure Summary where
  income : ℚ
  expense : ℚ
  balance : ℚ
deriving DecidableEq

/-- Embeds `calculateAccountSummary` (src/App.tsx lines 89-97):
income = reduce of amounts over transactions filtered to INCOME,
expense likewise over EXPENSE, balance = income - expense. -/
def calculateAccountSummary (account : Account) : Summary :=
  let income := (account.transactions.filter
      (fun t => t.type == TransactionType.income)).foldl (fun sum t => sum + t.amount) 0
  let expense := (account.transactions.filter
      (fun t => t.type == TransactionType.expense)).foldl (fun sum t => sum + t.amount) 0
  { income := income, expense := expense, balance := income - expense }

/-- The signed amount a transaction contributes to a balance. -/
def signedAmount (t : Transaction) : ℚ :=
  if t.type == TransactionType.income then t.amount else -t.amount

lemma foldl_add_amount (ts : List Transaction) (init : ℚ) :
    ts.foldl (fun sum t => sum + t.amount) init = init + (ts.map Transaction.amount).sum := by
  induction ts generalizing init with
  | nil => simp
  | cons t ts ih => simp [List.foldl_cons, ih, add_assoc]

lemma calculateAccountSummary_income (a : Account) :
    (calculateAccountSummary a).income =
      ((a.transactions.filter (fun t => t.type == TransactionType.income)).map
        Transaction.amount).sum := by
  simp [calculateAccountSummary, foldl_add_amount]

lemma calculateAccountSummary_expense (a : Account) :
    (calculateAccountSummary a).expense =
      ((a.transactions.filter (fun t => t.type == TransactionType.expense)).map
        Transaction.amount).sum := by
  simp [calculateAccountSummary, foldl_add_amount]

/-- C1: for every account, `calculateAccountSummary` returns income equal to the
sum of the amounts of its INCOME transactions, expense equal to the sum of the
amounts of its EXPENSE transactions, and balance equal to income minus expense;
an empty account yields all zeros, and the result is invariant under any
permutation of the transaction list. -/
theorem summarize_spec (a : Account) :
    (calculateAccountSummary a).income =
      ((a.transactions.filter (fun t => t.type == TransactionType.income)).map
        Transaction.amount).sum ∧
    (calculateAccountSummary a).expense =
      ((a.transactions.filter (fun t => t.type == TransactionType.expense)).map
        Transaction.amount).sum ∧
    (calculateAccountSummary a).balance =
      (calculateAccountSummary a).income - (calculateAccountSummary a).expense ∧
    (a.transactions = [] →
      calculateAccountSummary a = { income := 0, expense := 0, balance := 0 }) ∧
    (∀ b : Account, b.transactions.Perm a.transactions →
      calculateAccountSummary b = calculateAccountSummary a) := by
  refine ⟨calculateAccountSummary_income a, calculateAccountSummary_expense a, rfl, ?_, ?_⟩
  · intro h
    simp [calculateAccountSummary, h]
  · intro b hperm
    have hsum : ∀ ty : TransactionType,
        ((b.transactions.filter (fun t => t.type == ty)).map Transaction.amount).sum =
          ((a.transactions.filter (fun t => t.type == ty)).map Transaction.amount).sum :=
      fun ty => ((hperm.filter _).map _).sum_eq
    have hib := calculateAccountSummary_income b
    have hia := calculateAccountSummary_income a
    have heb := calculateAccountSummary_expense b
    have hea := calculateAccountSummary_expense a
    have e1 : (calculateAccountSummary b).income = (calculateAccountSummary a).income := by
      rw [hib, hia, hsum TransactionType.income]
    have e2 : (calculateAccountSummary b).expense = (calculateAccountSummary a).expense := by
      rw [heb, hea, hsum TransactionType.expense]
    have e3 : (calculateAccountSummary b).balance = (calculateAccountSummary a).balance := by
      show (calculateAccountSummary b).income - (calculateAccountSummary b).expense =
        (calculateAccountSummary a).income - (calculateAccountSummary a).expense
      rw [e1, e2]
    exact Summary.ext e1 e2 e3

/-- Witness for C1: the summary of the spec scenario account is invariant under a
concrete permutation of its transactions, via `summarize_spec`. -/
theorem summarize_spec_witness :
    calculateAccountSummary
      { id := "c1", name := "Checking", transactions :=
        [{ id := "t3", description := "gift", amount := 50, date := "d3",
           type := TransactionType.income },
         { id := "t1", description := "salary", amount := 1000, date := "d1",
           type := TransactionType.income },
         { id := "t2", description := "rent", amount := 200, date := "d2",
           type := TransactionType.expense }] } =
    calculateAccountSummary
      { id := "c1", name := "Checking", transactions :=
        [{ id := "t1", description := "salary", amount := 1000, date := "d1",
           type := TransactionType.income },
         { id := "t2", description := "rent", amount := 200, date := "d2",
           type := TransactionType.expense },
         { id := "t3", description := "gift", amount := 50, date := "d3",
           type := TransactionType.income }] } :=
  (summarize_spec _).2.2.2.2 _ (by decide)

/-! ### Reordering, from `src/App.tsx` lines 259-289 and the dnd-kit `arrayMove` -/

/-- `arrayMove(array, from, to)` of `@dnd-kit/sortable`: remove the element at
index `i` and re-insert it at index `j`.  The handlers below only call it with
indices obtained from successful `findIndex` lookups, hence in range; an
out-of-range `i` leaves the list unchanged here. -/
def arrayMove {α : Type} (l : List α) (i j : ℕ) : List α :=
  match l[i]? with
  | none => l
  | some x => (l.eraseIdx i).insertIdx j x

/-- Embeds `handleReorderAccounts` (src/App.tsx lines 259-269): no-op when the
two ids coincide or either is absent, otherwise `arrayMove` on the indices of
the ids in the full accounts list. -/
def handleReorderAccounts (items : List Account) (activeId overId : String) :
    List Account :=
  if activeId == overId then items
  else
    match items.findIdx? (fun item => item.id == activeId),
        items.findIdx? (fun item => item.id == overId) with
    | some oldIndex, some newIndex => arrayMove items oldIndex newIndex
    | _, _ => items

/-- Embeds `handleReorderTransactions` (src/App.tsx lines 271-289): locate the
account by id, then `arrayMove` inside its transaction list; no-op when the ids
coincide or any lookup fails.  The source reads `prevAccounts[accountIndex]`
after a successful `findIndex`, which is always in range; the `none` fallback
below is unreachable. -/
def handleReorderTransactions (prevAccounts : List Account)
    (accountId activeId overId : String) : List Account :=
  if activeId == overId then prevAccounts
  else
    match prevAccounts.findIdx? (fun acc => acc.id == accountId) with
    | none => prevAccounts
    | some accountIndex =>
      match prevAccounts[accountIndex]? with
      | none => prevAccounts
      | some account =>
        match account.transactions.findIdx? (fun t => t.id == activeId),
            account.transactions.findIdx? (fun t => t.id == overId) with
        | some oldIndex, some newIndex =>
          prevAccounts.set accountIndex
            { account with transactions := arrayMove account.transactions oldIndex newIndex }
        | _, _ => prevAccounts

lemma perm_insertIdx {α : Type} (x : α) :
    ∀ (n : ℕ) (l : List α), n ≤ l.length → (l.insertIdx n x).Perm (x :: l) := by
  intro n
  induction n with
  | zero => intro l _; simp [List.insertIdx_zero]
  | succ n ih =>
    intro l hl
    cases l with
    | nil => simp at hl
    | cons a l =>
      rw [List.insertIdx_succ_cons]
      exact ((ih l (Nat.le_of_succ_le_succ hl)).cons a).trans (List.Perm.swap x a l)

lemma perm_cons_eraseIdx {α : Type} :
    ∀ (l : List α) (i : ℕ) (x : α), l[i]? = some x → (x :: l.eraseIdx i).Perm l := by
  intro l
  induction l with
  | nil => intro i x h; simp at h
  | cons a l ih =>
    intro i x h
    cases i with
    | zero =>
      simp at h
      simp [h]
    | succ i =>
      simp at h
      exact (List.Perm.swap a x (l.eraseIdx i)).trans ((ih i x h).cons a)

lemma arrayMove_spec {α : Type} (l : List α) (i j : ℕ) (x : α)
    (hx : l[i]? = some x) (hj : j < l.length) :
    (arrayMove l i j).Perm l ∧ (arrayMove l i j)[j]? = some x ∧
      (arrayMove l i j).eraseIdx j = l.eraseIdx i := by
  have hi : i < l.length := by
    by_contra hcon
    rw [List.getElem?_eq_none (Nat.le_of_not_lt hcon)] at hx
    exact Option.noConfusion hx
  have hlen : (l.eraseIdx i).length = l.length - 1 := by
    rw [List.length_eraseIdx]
    simp [hi]
  have hj' : j ≤ (l.eraseIdx i).length := by
    rw [hlen]
    exact Nat.le_sub_one_of_lt hj
  have hmove : arrayMove l i j = (l.eraseIdx i).insertIdx j x := by
    simp [arrayMove, hx]
  refine ⟨?_, ?_, ?_⟩
  · rw [hmove]
    exact (perm_insertIdx x j (l.eraseIdx i) hj').trans (perm_cons_eraseIdx l i x hx)
  · rw [hmove]
    have hjlt : j < ((l.eraseIdx i).insertIdx j x).length := by
      rw [List.length_insertIdx j _ hj', hlen]
      omega
    rw [List.getElem?_eq_getElem hjlt, List.getElem_insertIdx_self _ _ _ hj']
  · rw [hmove, List.eraseIdx_insertIdx]

lemma findIdx?_some_lt {α : Type} {l : List α} {p : α → Bool} {i : ℕ}
    (h : l.findIdx? p = some i) : i < l.length :=
  (List.findIdx?_eq_some_iff_findIdx_eq.mp h).1

/-- C3: for both reorder handlers, a request with `movedId = targetId` or with
either id absent leaves the collection unchanged; otherwise the result is a
permutation of the input in which the element at the moved id's old index sits
at the target id's old index, and erasing it from both sides yields equal lists
(so every other element keeps its relative order and the element set is
invariant).  Both handlers resolve indices by `findIndex` on the full
collection; no filtered or paginated subset enters the computation. -/
theorem reorder_spec (items : List Account) (activeId overId : String) :
    (activeId = overId → handleReorderAccounts items activeId overId = items) ∧
    ((items.findIdx? (fun item => item.id == activeId) = none ∨
        items.findIdx? (fun item => item.id == overId) = none) →
      handleReorderAccounts items activeId overId = items) ∧
    (∀ i j, activeId ≠ overId →
      items.findIdx? (fun item => item.id == activeId) = some i →
      items.findIdx? (fun item => item.id == overId) = some j →
      (handleReorderAccounts items activeId overId).Perm items ∧
      (handleReorderAccounts items activeId overId)[j]? = items[i]? ∧
      (handleReorderAccounts items activeId overId).eraseIdx j = items.eraseIdx i) ∧
    (∀ (accounts : List Account) (accountId : String),
      (activeId = overId →
        handleReorderTransactions accounts accountId activeId overId = accounts) ∧
      (accounts.findIdx? (fun acc => acc.id == accountId) = none →
        handleReorderTransactions accounts accountId activeId overId = accounts) ∧
      (∀ ai account, activeId ≠ overId →
        accounts.findIdx? (fun acc => acc.id == accountId) = some ai →
        accounts[ai]? = some account →
        ((account.transactions.findIdx? (fun t => t.id == activeId) = none ∨
            account.transactions.findIdx? (fun t => t.id == overId) = none) →
          handleReorderTransactions accounts accountId activeId overId = accounts) ∧
        (∀ i j, account.transactions.findIdx? (fun t => t.id == activeId) = some i →
          account.transactions.findIdx? (fun t => t.id == overId) = some j →
          handleReorderTransactions accounts accountId activeId overId =
            accounts.set ai
              { account with transactions := arrayMove account.transactions i j } ∧
          (arrayMove account.transactions i j).Perm account.transactions ∧
          (arrayMove account.transactions i j)[j]? = account.transactions[i]? ∧
          (arrayMove account.transactions i j).eraseIdx j =
            account.transactions.eraseIdx i ∧
          (∀ k, k ≠ ai →
            (handleReorderTransactions accounts accountId activeId overId)[k]? =
              accounts[k]?)))) := by
  refine ⟨?_, ?_, ?_, ?_⟩
  · intro h
    simp [handleReorderAccounts, h]
  · intro h
    by_cases hid : activeId = overId
    · simp [handleReorderAccounts, hid]
    · have hbeq : (activeId == overId) = false := by simp [hid]
      rcases h with h | h <;> simp [handleReorderAccounts, hbeq, h]
  · intro i j hne hfi hfj
    have hbeq : (activeId == overId) = false := by simp [hne]
    have hres : handleReorderAccounts items activeId overId = arrayMove items i j := by
      simp [handleReorderAccounts, hbeq, hfi, hfj]
    have hi : i < items.length := findIdx?_some_lt hfi
    have hj : j < items.length := findIdx?_some_lt hfj
    have hx : items[i]? = some items[i] := List.getElem?_eq_getElem hi
    obtain ⟨h1, h2, h3⟩ := arrayMove_spec items i j items[i] hx hj
    rw [hres]
    exact ⟨h1, by rw [h2, hx], h3⟩
  · intro accounts accountId
    refine ⟨?_, ?_, ?_⟩
    · intro h
      simp [handleReorderTransactions, h]
    · intro h
      by_cases hid : activeId = overId
      · simp [handleReorderTransactions, hid]
      · have hbeq : (activeId == overId) = false := by simp [hid]
        simp [handleReorderTransactions, hbeq, h]
    · intro ai account hne hfa hga
      have hbeq : (activeId == overId) = false := by simp [hne]
      constructor
      · intro h
        rcases h with h | h <;> simp [handleReorderTransactions, hbeq, hfa, hga, h]
      · intro i j hfi hfj
        have hres : handleReorderTransactions accounts accountId activeId overId =
            accounts.set ai
              { account with transactions := arrayMove account.transactions i j } := by
          simp [handleReorderTransactions, hbeq, hfa, hga, hfi, hfj]
        have hi : i < account.transactions.length := findIdx?_some_lt hfi
        have hj : j < account.transactions.length := findIdx?_some_lt hfj
        have hx : account.transactions[i]? = some account.transactions[i] :=
          List.getElem?_eq_getElem hi
        obtain ⟨h1, h2, h3⟩ := arrayMove_spec account.transactions i j
          account.transactions[i] hx hj
        refine ⟨hres, h1, by rw [h2, hx], h3, ?_⟩
        intro k hk
        rw [hres, List.getElem?_set_ne (fun he => hk he.symm)]

/-- Three concrete accounts used to witness the reorder theorem. -/
def sampleAccounts : List Account :=
  [{ id := "a1", name := "Ahorros", transactions := [] },
   { id := "a2", name := "Nomina", transactions := [] },
   { id := "a3", name := "Credito", transactions := [] }]

/-- Witness for C3: moving account `a1` onto `a3` in a concrete three-account
list yields a permutation with `a1` at `a3`'s old index, via `reorder_spec`. -/
theorem reorder_spec_witness :
    (handleReorderAccounts sampleAccounts "a1" "a3").Perm sampleAccounts ∧
    (handleReorderAccounts sampleAccounts "a1" "a3")[2]? = sampleAccounts[0]? ∧
    (handleReorderAccounts sampleAccounts "a1" "a3").eraseIdx 2 =
      sampleAccounts.eraseIdx 0 :=
  (reorder_spec sampleAccounts "a1" "a3").2.2.1 0 2 (by decide) (by decide) (by decide)

/-! ### Create handlers, from `src/App.tsx` lines 176-184 and 213-237 -/

/-- Embeds `handleAddAccount` (src/App.tsx lines 176-184); `newId` stands for
the `crypto.randomUUID()` result. -/
def handleAddAccount (prev : List Account) (newId name : String) : List Account :=
  prev ++ [{ id := newId, name := name, transactions := [] }]

/-- The payload the transaction form passes to `onSubmit`
(src/components/TransactionForm.tsx lines 124-127). -/
structure TxFormData where
  description : String
  amount : ℚ
deriving DecidableEq

/-- Embeds `handleAddOrUpdateTransaction` (src/App.tsx lines 213-237); `newId`
and `newDate` stand for `crypto.randomUUID()` and `new Date().toISOString()`.
`transactionToEdit = none` is the add branch, `some` the update branch (which
spreads the form data over the edited transaction; the form payload carries no
`type`, so the original type is kept). -/
def handleAddOrUpdateTransaction (prevAccounts : List Account)
    (selectedAccountId : Option String) (transactionToEdit : Option Transaction)
    (transactionTypeForForm : TransactionType) (data : TxFormData)
    (newId newDate : String) : List Account :=
  match selectedAccountId with
  | none => prevAccounts
  | some sel =>
    prevAccounts.map (fun acc =>
      if acc.id == sel then
        match transactionToEdit with
        | some tte =>
          { acc with transactions := acc.transactions.map (fun t =>
              if t.id == tte.id then
                { tte with description := data.description, amount := data.amount }
              else t) }
        | none =>
          { acc with transactions := acc.transactions ++
              [{ id := newId, description := data.description, amount := data.amount,
                 date := newDate, type := transactionTypeForForm }] }
      else acc)

/-- C10: creating an account appends it at the end of the accounts list, and
creating a transaction (add branch, selected account present with a unique id)
appends it at the end of that account's transaction list; in both cases every
previously existing element keeps its position and contents. -/
theorem create_appends_spec :
    (∀ (prev : List Account) (newId name : String),
      handleAddAccount prev newId name =
        prev ++ [{ id := newId, name := name, transactions := [] }] ∧
      (handleAddAccount prev newId name).length = prev.length + 1 ∧
      (∀ k, k < prev.length → (handleAddAccount prev newId name)[k]? = prev[k]?) ∧
      (handleAddAccount prev newId name)[prev.length]? =
        some { id := newId, name := name, transactions := [] }) ∧
    (∀ (accounts : List Account) (sel : String) (ttype : TransactionType)
        (data : TxFormData) (txId txDate : String) (i : ℕ) (acc : Account),
      accounts[i]? = some acc → acc.id = sel →
      (∀ k b, k ≠ i → accounts[k]? = some b → b.id ≠ sel) →
      (handleAddOrUpdateTransaction accounts (some sel) none ttype data txId txDate).length =
        accounts.length ∧
      (handleAddOrUpdateTransaction accounts (some sel) none ttype data txId txDate)[i]? =
        some { acc with transactions := acc.transactions ++
          [{ id := txId, description := data.description, amount := data.amount,
             date := txDate, type := ttype }] } ∧
      (∀ k, k ≠ i →
        (handleAddOrUpdateTransaction accounts (some sel) none ttype data txId txDate)[k]? =
          accounts[k]?)) := by
  constructor
  · intro prev newId name
    refine ⟨rfl, by simp [handleAddAccount], ?_, ?_⟩
    · intro k hk
      simp [handleAddAccount, List.getElem?_append_left hk]
    · simp [handleAddAccount]
  · intro accounts sel ttype data txId txDate i acc hget hid hothers
    refine ⟨by simp [handleAddOrUpdateTransaction], ?_, ?_⟩
    · simp [handleAddOrUpdateTransaction, hget, hid]
    · intro k hk
      simp only [handleAddOrUpdateTransaction, List.getElem?_map]
      cases hg : accounts[k]? with
      | none => rfl
      | some b =>
        have hb : b.id ≠ sel := hothers k b hk hg
        simp [hb]

/-- Witness for C10: adding a transaction to the only account of a concrete
one-account list appends it there, via `create_appends_spec`. -/
theorem create_appends_spec_witness :
    (handleAddOrUpdateTransaction [{ id := "a1", name := "Ahorros", transactions := [] }]
        (some "a1") none TransactionType.income
        { description := "sueldo", amount := 100 } "t9" "2024-01-01")[0]? =
      some { id := "a1", name := "Ahorros", transactions :=
        [{ id := "t9", description := "sueldo", amount := 100,
           date := "2024-01-01", type := TransactionType.income }] } :=
  (create_appends_spec.2 [{ id := "a1", name := "Ahorros", transactions := [] }]
    "a1" TransactionType.income { description := "sueldo", amount := 100 }
    "t9" "2024-01-01" 0 { id := "a1", name := "Ahorros", transactions := [] }
    (by decide) (by decide)
    (by
      intro k b hk hg
      cases k with
      | zero => exact absurd rfl hk
      | succ n => simp at hg)).2.1

/-! ### Pagination state, from `src/components/AccountDetail.tsx` and the
`AccountsTable` component (src/unnamed/part_003).  Both views hold a
`currentPage` React state (initially 1) and a page size of 5; the events below
are the only places either component updates that state. -/

/-- `Math.ceil(n / per)` on naturals, the page count used by both views. -/
def jsCeilPages (n per : ℕ) : ℕ := (n + per - 1) / per

/-- An event observed by a paginated list view.  `collectionChanged n` is a
re-render with the backing collection now of length `n`; `searchChanged` is a
change of the view's filter query. -/
inductive ListEvent where
  | prevClick
  | nextClick
  | collectionChanged (n : ℕ)
  | searchChanged
deriving DecidableEq

/-- The clamping effect of `AccountDetail` (src/components/AccountDetail.tsx
lines 126-130): if the current page exceeds a positive page count, set it to
the page count. -/
def detailClampPage (currentPage totalTransactions : ℕ) : ℕ :=
  let totalPages := jsCeilPages totalTransactions 5
  if currentPage > totalPages ∧ totalPages > 0 then totalPages else currentPage

/-- Page-state transitions of `AccountDetail`, as (page, collection length)
pairs: `prevClick`/`nextClick` embed the Anterior/Siguiente buttons (lines
205-215), `collectionChanged` the clamp effect (lines 126-130), and
`searchChanged` the reset effect (lines 132-134). -/
def detailStep : ℕ × ℕ → ListEvent → ℕ × ℕ
  | (page, len), ListEvent.prevClick => (max (page - 1) 1, len)
  | (page, len), ListEvent.nextClick => (min (page + 1) (jsCeilPages len 5), len)
  | (page, _), ListEvent.collectionChanged n => (detailClampPage page n, n)
  | (_, len), ListEvent.searchChanged => (1, len)

/-- Page-state transitions of the `AccountsTable` component
(src/unnamed/part_003): its only `setCurrentPage` call sites are the
Anterior/Siguiente buttons; the component has no effect reacting to a change of
the accounts collection or of the search query, so those events leave the page
untouched. -/
def tableStep : ℕ × ℕ → ListEvent → ℕ × ℕ
  | (page, len), ListEvent.prevClick => (max (page - 1) 1, len)
  | (page, len), ListEvent.nextClick => (min (page + 1) (jsCeilPages len 5), len)
  | (page, _), ListEvent.collectionChanged n => (page, n)
  | (page, len), ListEvent.searchChanged => (page, len)

/-- Counterexample to C4 as stated: in the accounts table, go to page 2 of six
accounts, then shrink the collection to a single account; the page stays 2,
which exceeds the new page count 1, so it is not clamped to the last valid
page. -/
theorem table_no_clamp_counterexample :
    (List.foldl tableStep (1, 6)
      [ListEvent.nextClick, ListEvent.collectionChanged 1]).1 = 2 ∧
    jsCeilPages 1 5 = 1 ∧ ¬(2 ≤ 1) := by decide

/-- C4 amended: only the account-detail transaction list clamps its page when
the collection shrinks — and only when the new page count is positive — and
resets it to 1 when the filter query changes; the accounts table leaves its
page unchanged on both events. -/
theorem page_clamp_spec (page len n : ℕ) :
    (0 < jsCeilPages n 5 → jsCeilPages n 5 < page →
      (detailStep (page, len) (ListEvent.collectionChanged n)).1 = jsCeilPages n 5) ∧
    (page ≤ jsCeilPages n 5 →
      (detailStep (page, len) (ListEvent.collectionChanged n)).1 = page) ∧
    (detailStep (page, len) ListEvent.searchChanged).1 = 1 ∧
    (tableStep (page, len) (ListEvent.collectionChanged n)).1 = page ∧
    (tableStep (page, len) ListEvent.searchChanged).1 = page := by
  refine ⟨?_, ?_, rfl, rfl, rfl⟩
  · intro hpos hlt
    simp [detailStep, detailClampPage, hpos, hlt]
  · intro hle
    simp [detailStep, detailClampPage]
    omega

/-- Witness for C4 amended: with 20 transactions shrunk to 6 while on page 7,
the detail view clamps to page 2; the accounts table keeps page 7, via
`page_clamp_spec`. -/
theorem page_clamp_spec_witness :
    (detailStep (7, 20) (ListEvent.collectionChanged 6)).1 = 2 ∧
    (tableStep (7, 20) (ListEvent.collectionChanged 6)).1 = 7 :=
  ⟨(page_clamp_spec 7 20 6).1 (by decide) (by decide),
   (page_clamp_spec 7 20 6).2.2.2.1⟩

/-! ### Account sorting, from `src/App.tsx` lines 99-135 and 165-172 -/

inductive AccountSortKey where
  | name
  | balance
  | income
  | expense
deriving DecidableEq

inductive SortDirection where
  | asc
  | desc
deriving DecidableEq

structure AccountSortConfig where
  key : AccountSortKey
  direction : SortDirection
deriving DecidableEq

/-- JS `String.prototype.trim`: drop whitespace from both ends.  (Lean's own
`String.trim` is equivalent but does not reduce inside the kernel, so the
list-based form is used throughout.) -/
def jsTrim (s : String) : String :=
  String.mk
    ((s.toList.dropWhile Char.isWhitespace).reverse.dropWhile Char.isWhitespace).reverse

/-- JS `String.prototype.toLowerCase` (ASCII range). -/
def jsToLower (s : String) : String := String.mk (s.toList.map Char.toLower)

/-- JS `hay.includes(needle)`: some index at which `needle` starts in `hay`. -/
def containsSub (hay needle : String) : Bool :=
  (List.range (hay.toList.length + 1)).any
    (fun i => needle.toList.isPrefixOf (hay.toList.drop i))

/-- The string comparator of the name branch (src/App.tsx lines 124-130):
-1 / 1 / 0 against the sort direction. -/
def jsStrCmp (dir : SortDirection) (a b : String) : Int :=
  if a < b then (match dir with | SortDirection.asc => -1 | SortDirection.desc => 1)
  else if b < a then (match dir with | SortDirection.asc => 1 | SortDirection.desc => -1)
  else 0

/-- Embeds the `sortedAndFilteredAccounts` memo (src/App.tsx lines 99-135).
The comparator's numeric branch (lines 118-121) reads `sortConfig.key`, but no
`sortConfig` is in scope in `App` (the state is named `accountSortConfig`), so
the first comparator invocation throws `ReferenceError: sortConfig is not
defined`; `Array.prototype.sort` invokes the comparator exactly when the array
has at least two elements, hence the error is raised precisely for a numeric
sort key with at least two visible accounts.  JS stable `sort` with a
comparator is `mergeSort` keeping `a` before `b` when the comparator is
nonpositive. -/
def sortedAndFilteredAccounts (accounts : List Account) (accountSearchTerm : String)
    (accountSortConfig : Option AccountSortConfig) : Except String (List Account) :=
  let filtered := if jsTrim accountSearchTerm = "" then accounts
    else accounts.filter (fun account =>
      containsSub (jsToLower account.name) (jsToLower accountSearchTerm))
  match accountSortConfig with
  | none => Except.ok filtered
  | some cfg =>
    match cfg.key with
    | AccountSortKey.name =>
      Except.ok (filtered.mergeSort (fun a b =>
        decide (jsStrCmp cfg.direction (jsToLower a.name) (jsToLower b.name) ≤ 0)))
    | _ =>
      if 2 ≤ filtered.length then
        Except.error "ReferenceError: sortConfig is not defined"
      else Except.ok filtered

/-- Embeds `handleSortAccounts` (src/App.tsx lines 165-172): toggling the
active ascending key flips to descending, anything else yields ascending on
the chosen key. -/
def handleSortAccounts (prevConfig : Option AccountSortConfig)
    (key : AccountSortKey) : AccountSortConfig :=
  match prevConfig with
  | some cfg =>
    if cfg.key = key ∧ cfg.direction = SortDirection.asc then
      { key := key, direction := SortDirection.desc }
    else { key := key, direction := SortDirection.asc }
  | none => { key := key, direction := SortDirection.asc }

/-- C2 evidence: sorting two concrete accounts by the `balance` key throws the
`ReferenceError` instead of ordering them by their computed summaries; the sort
never produces an ordered list for any numeric key with two or more visible
accounts. -/
theorem sort_numeric_key_crashes :
    sortedAndFilteredAccounts
      [{ id := "a1", name := "Ahorros", transactions := [] },
       { id := "a2", name := "Nomina", transactions := [] }] ""
      (some { key := AccountSortKey.balance, direction := SortDirection.asc }) =
      Except.error "ReferenceError: sortConfig is not defined" := by
  rfl

/-! ### JSON import/export, from `src/App.tsx` lines 17-69.  `localStorage` is
a partial map from keys to stored JSON values; `JSON.stringify`/`JSON.parse`
form the identity bijection between a value and its stored text, so storing
text and storing the value are interchangeable. -/

inductive Json where
  | null
  | bool (b : Bool)
  | num (q : ℚ)
  | str (s : String)
  | arr (elems : List Json)
  | obj (fields : List (String × Json))

/-- JS truthiness of a parsed JSON value (`undefined` never arises for a
parse result). -/
def jsTruthy : Json → Bool
  | Json.null => false
  | Json.bool b => b
  | Json.num q => decide (q ≠ 0)
  | Json.str s => decide (s ≠ "")
  | Json.arr _ => true
  | Json.obj _ => true

/-- JS property access `v.field` on a parsed JSON value: defined on objects,
`undefined` (here `none`) elsewhere.  (The two field names the code reads,
`accounts` and `selectedAccountId`, are not built-in properties of arrays,
strings or numbers.) -/
def jsGetField : Json → String → Option Json
  | Json.obj fields, k => fields.lookup k
  | _, _ => none

/-- JS `x || null` applied to a possibly-undefined value. -/
def jsOrNull : Option Json → Json
  | some v => if jsTruthy v then v else Json.null
  | none => Json.null

def Store : Type := String → Option Json

def emptyStore : Store := fun _ => none

/-- `localStorage.setItem` with the stored text read back as its value. -/
def setItem (s : Store) (k : String) (v : Json) : Store :=
  fun q => if q = k then some v else s q

/-- `JSON.parse(localStorage.getItem(k) || dfltText)`. -/
def getItemOr (s : Store) (k : String) (dflt : Json) : Json := (s k).getD dflt

/-- Embeds `handleExportData` (src/App.tsx lines 17-37): the exported document
holds the stored accounts (default `[]`) and the stored selected-account id
(default `null`). -/
def handleExportData (store : Store) : Json :=
  Json.obj [("accounts", getItemOr store "accounts" (Json.arr [])),
            ("selectedAccountId", getItemOr store "selectedAccountId" Json.null)]

inductive ImportOutcome where
  | imported
  | declined
  | rejectedFormat
deriving DecidableEq

/-- The acceptance test of src/App.tsx line 51:
`importedData && Array.isArray(importedData.accounts)`. -/
def acceptsImport (importedData : Json) : Bool :=
  jsTruthy importedData &&
    (match jsGetField importedData "accounts" with
      | some (Json.arr _) => true
      | _ => false)

/-- Embeds `handleImportData` (src/App.tsx lines 39-69) after a successful file
read and `JSON.parse`; `confirm` models the `window.confirm` answer.  The
document is accepted when it is truthy and its `accounts` property is an array
(line 51); on confirmation the accounts and then the selected id (`|| null`)
are written to storage (lines 53-54); declining or rejection leaves the store
untouched. -/
def handleImportData (store : Store) (importedData : Json) (confirm : Bool) :
    Store × ImportOutcome :=
  if acceptsImport importedData then
    if confirm then
      (setItem
        (setItem store "accounts"
          ((jsGetField importedData "accounts").getD Json.null))
        "selectedAccountId" (jsOrNull (jsGetField importedData "selectedAccountId")),
       ImportOutcome.imported)
    else (store, ImportOutcome.declined)
  else (store, ImportOutcome.rejectedFormat)

/-- The spec's acceptance condition, in its own words: the parsed document has
a top-level `accounts` field holding an array. -/
def specAcceptsImport (j : Json) : Prop :=
  ∃ l, jsGetField j "accounts" = some (Json.arr l)

lemma jsGetField_some_truthy {j : Json} {k : String} {v : Json}
    (h : jsGetField j k = some v) : jsTruthy j = true := by
  cases j <;> simp [jsGetField, jsTruthy] at h ⊢

lemma acceptsImport_iff (j : Json) : acceptsImport j = true ↔ specAcceptsImport j := by
  unfold acceptsImport specAcceptsImport
  cases hg : jsGetField j "accounts" with
  | none => simp [hg]
  | some v => cases v <;> simp [hg, jsGetField_some_truthy hg]

/-- C5: import accepts a document iff its top-level `accounts` field is an
array; a rejected document and a declined confirmation both leave the store
untouched; acceptance plus confirmation replaces the persisted accounts and
selected-account id and touches no other key; and the concrete document
`{"accounts": "not-an-array"}` is rejected with no state change. -/
theorem import_spec (store : Store) (j : Json) (confirm : Bool) :
    ((handleImportData store j confirm).2 ≠ ImportOutcome.rejectedFormat ↔
      specAcceptsImport j) ∧
    ((handleImportData store j confirm).2 = ImportOutcome.rejectedFormat →
      (handleImportData store j confirm).1 = store) ∧
    (confirm = false → (handleImportData store j confirm).1 = store) ∧
    (∀ l, jsGetField j "accounts" = some (Json.arr l) → confirm = true →
      (handleImportData store j confirm).1 "accounts" = some (Json.arr l) ∧
      (handleImportData store j confirm).1 "selectedAccountId" =
        some (jsOrNull (jsGetField j "selectedAccountId")) ∧
      (∀ k, k ≠ "accounts" → k ≠ "selectedAccountId" →
        (handleImportData store j confirm).1 k = store k) ∧
      (handleImportData store j confirm).2 = ImportOutcome.imported) ∧
    handleImportData store (Json.obj [("accounts", Json.str "not-an-array")]) confirm =
      (store, ImportOutcome.rejectedFormat) := by
  refine ⟨?_, ?_, ?_, ?_, ?_⟩
  · rw [← acceptsImport_iff]
    cases hacc : acceptsImport j with
    | false => simp [handleImportData, hacc]
    | true => cases confirm <;> simp [handleImportData, hacc]
  · cases hacc : acceptsImport j with
    | false => simp [handleImportData, hacc]
    | true => cases confirm <;> simp [handleImportData, hacc]
  · intro hc
    subst hc
    cases hacc : acceptsImport j <;> simp [handleImportData, hacc]
  · intro l hl hc
    subst hc
    have hacc : acceptsImport j = true :=
      (acceptsImport_iff j).mpr ⟨l, hl⟩
    refine ⟨?_, ?_, ?_, ?_⟩ <;>
      simp [handleImportData, hacc, setItem, hl]
    intro k hk1 hk2
    simp [hk1, hk2]
  · have hacc : acceptsImport (Json.obj [("accounts", Json.str "not-an-array")]) = false := by
      rfl
    simp [handleImportData, hacc]

/-- Witness for C5: a confirmed import of a one-account document stores exactly
that accounts array and a `null` selected id, via `import_spec`. -/
theorem import_spec_witness :
    (handleImportData emptyStore
      (Json.obj [("accounts", Json.arr [Json.str "a"])]) true).1 "accounts" =
      some (Json.arr [Json.str "a"]) ∧
    (handleImportData emptyStore
      (Json.obj [("accounts", Json.arr [Json.str "a"])]) true).1 "selectedAccountId" =
      some Json.null :=
  ⟨((import_spec emptyStore (Json.obj [("accounts", Json.arr [Json.str "a"])]) true).2.2.2.1
      [Json.str "a"] rfl rfl).1,
   ((import_spec emptyStore (Json.obj [("accounts", Json.arr [Json.str "a"])]) true).2.2.2.1
      [Json.str "a"] rfl rfl).2.1⟩

/-- C6: exporting the persisted snapshot and importing it back unmodified (with
confirmation) reproduces the identical root collection — the same stored
accounts array (same accounts, transactions, order and ids) and the same
selected-account id (absent read as `null`) — and touches no other key.  The
hypotheses state that the store is well formed: the accounts key holds an array
(or is absent, read as `[]`), and the selected id is absent, `null`, or a
non-empty string. -/
theorem export_roundtrip_spec (store : Store) (accs : List Json)
    (h1 : getItemOr store "accounts" (Json.arr []) = Json.arr accs)
    (h2 : store "selectedAccountId" = none ∨ store "selectedAccountId" = some Json.null ∨
      ∃ s, s ≠ "" ∧ store "selectedAccountId" = some (Json.str s)) :
    (handleImportData store (handleExportData store) true).2 = ImportOutcome.imported ∧
    getItemOr (handleImportData store (handleExportData store) true).1 "accounts"
      (Json.arr []) = Json.arr accs ∧
    getItemOr (handleImportData store (handleExportData store) true).1 "selectedAccountId"
      Json.null = getItemOr store "selectedAccountId" Json.null ∧
    (∀ k, k ≠ "accounts" → k ≠ "selectedAccountId" →
      (handleImportData store (handleExportData store) true).1 k = store k) := by
  have hdoc : handleExportData store =
      Json.obj [("accounts", Json.arr accs),
                ("selectedAccountId", getItemOr store "selectedAccountId" Json.null)] := by
    unfold handleExportData
    rw [h1]
  have hga : jsGetField (handleExportData store) "accounts" = some (Json.arr accs) := by
    rw [hdoc]
    rfl
  have hgs : jsGetField (handleExportData store) "selectedAccountId" =
      some (getItemOr store "selectedAccountId" Json.null) := by
    rw [hdoc]
    rfl
  have hacc : acceptsImport (handleExportData store) = true :=
    (acceptsImport_iff _).mpr ⟨accs, hga⟩
  have hkeep : jsOrNull (some ((store "selectedAccountId").getD Json.null)) =
      (store "selectedAccountId").getD Json.null := by
    rcases h2 with h | h | ⟨s, hs, h⟩
    · simp [h, jsOrNull, jsTruthy]
    · simp [h, jsOrNull, jsTruthy]
    · simp [h, jsOrNull, jsTruthy, hs]
  refine ⟨?_, ?_, ?_, ?_⟩
  · simp [handleImportData, hacc]
  · simp [handleImportData, hacc, setItem, getItemOr, hga]
  · simp [handleImportData, hacc, setItem, getItemOr, hgs, hkeep]
  · intro k hk1 hk2
    simp [handleImportData, hacc, setItem, hk1, hk2]

/-- Witness for C6: a concrete store holding one account and selected id "a1"
round-trips to the same stored values, via `export_roundtrip_spec`. -/
theorem export_roundtrip_spec_witness :
    getItemOr
      (handleImportData
        (setItem (setItem emptyStore "accounts" (Json.arr [Json.str "acc1"]))
          "selectedAccountId" (Json.str "a1"))
        (handleExportData
          (setItem (setItem emptyStore "accounts" (Json.arr [Json.str "acc1"]))
            "selectedAccountId" (Json.str "a1"))) true).1
      "selectedAccountId" Json.null = Json.str "a1" :=
  (export_roundtrip_spec
    (setItem (setItem emptyStore "accounts" (Json.arr [Json.str "acc1"]))
      "selectedAccountId" (Json.str "a1"))
    [Json.str "acc1"] rfl
    (Or.inr (Or.inr ⟨"a1", by decide, rfl⟩))).2.2.1

/-! ### Spreadsheet export, from `src/components/ExportButton.tsx` -/

structure AccountSummaryRow where
  cuenta : String
  ingresos : ℚ
  gastos : ℚ
  balance : ℚ
deriving DecidableEq

structure TransactionRow where
  transaccion : String
  saldo : ℚ
deriving DecidableEq

/-- Embeds the Cuentas master-sheet rows (ExportButton.tsx lines 15-29): one
row per account with its recomputed income, expense and balance. -/
def accountsSheetData (accounts : List Account) : List AccountSummaryRow :=
  accounts.map (fun account =>
    let income := (account.transactions.filter
        (fun t => t.type == TransactionType.income)).foldl (fun sum t => sum + t.amount) 0
    let expense := (account.transactions.filter
        (fun t => t.type == TransactionType.expense)).foldl (fun sum t => sum + t.amount) 0
    let balance := income - expense
    { cuenta := account.name, ingresos := income, gastos := expense, balance := balance })

/-- One step of the per-account transaction sheet: the JS `map` over
transactions threading the mutable `runningBalance` (ExportButton.tsx lines
35-46), as a fold carrying (rows so far, running balance). -/
def txRowStep (st : List TransactionRow × ℚ) (t : Transaction) :
    List TransactionRow × ℚ :=
  let rb := if t.type == TransactionType.income then st.2 + t.amount else st.2 - t.amount
  (st.1 ++ [{ transaccion := t.description, saldo := rb }], rb)

/-- The per-account sheet rows (ExportButton.tsx lines 34-46). -/
def transactionsSheetData (account : Account) : List TransactionRow :=
  (account.transactions.foldl txRowStep ([], 0)).1

/-- The characters of the sanitizing regex on ExportButton.tsx line 49 — the
characters illegal in xlsx sheet names. -/
def illegalSheetChars : List Char := ['*', '?', ':', '[', ']', '/', '\\']

/-- Sheet-name sanitization (ExportButton.tsx line 49):
`account.name.replace(/[*?:[\]/\\]/g, '').substring(0, 31)`. -/
def sheetNameFor (account : Account) : String :=
  String.mk ((account.name.toList.filter (fun c => !(illegalSheetChars.contains c))).take 31)

lemma txRows_go (ts : List Transaction) (rows : List TransactionRow) (b : ℚ) :
    (ts.foldl txRowStep (rows, b)).1 = rows ++ (ts.foldl txRowStep ([], b)).1 := by
  induction ts generalizing rows b with
  | nil => simp
  | cons t ts ih =>
    simp only [List.foldl_cons]
    rw [show txRowStep (rows, b) t =
        (rows ++ (txRowStep ([], b) t).1, (txRowStep ([], b) t).2) by simp [txRowStep]]
    rw [ih, ih (txRowStep ([], b) t).1]
    simp

lemma txRows_length (ts : List Transaction) (b : ℚ) :
    (ts.foldl txRowStep ([], b)).1.length = ts.length := by
  induction ts generalizing b with
  | nil => rfl
  | cons t ts ih =>
    simp only [List.foldl_cons]
    rw [txRows_go]
    simp [txRowStep, ih]

lemma txRows_getElem (ts : List Transaction) (b : ℚ) :
    ∀ (k : ℕ) (t : Transaction), ts[k]? = some t →
      (ts.foldl txRowStep ([], b)).1[k]? =
        some { transaccion := t.description,
               saldo := b + ((ts.take (k + 1)).map signedAmount).sum } := by
  induction ts generalizing b with
  | nil => intro k t h; simp at h
  | cons t0 ts ih =>
    intro k t h
    have hstep : txRowStep ([], b) t0 =
        ([{ transaccion := t0.description, saldo := b + signedAmount t0 }],
          b + signedAmount t0) := by
      by_cases hty : t0.type = TransactionType.income <;>
        simp [txRowStep, signedAmount, hty, sub_eq_add_neg]
    simp only [List.foldl_cons, hstep]
    rw [show (ts.foldl txRowStep
        ([{ transaccion := t0.description, saldo := b + signedAmount t0 }],
          b + signedAmount t0)).1 =
        [{ transaccion := t0.description, saldo := b + signedAmount t0 }] ++
          (ts.foldl txRowStep ([], b + signedAmount t0)).1 from txRows_go ts _ _]
    cases k with
    | zero =>
      simp at h
      subst h
      simp
    | succ k =>
      simp only [List.getElem?_cons_succ] at h
      rw [List.cons_append, List.nil_append, List.getElem?_cons_succ]
      rw [ih (b + signedAmount t0) k t h]
      simp [add_assoc]

/-- C7: the master sheet holds one row per account with its name and summary
income, expense and balance; each account's sheet lists rows in stored
transaction order whose running-balance entry at row `k` is the signed sum of
the first `k+1` transactions (adding INCOME amounts, subtracting EXPENSE
amounts); and each sheet name is the account name with the characters illegal
in sheet names removed (order of the remaining characters kept) and truncated
to at most 31 characters. -/
theorem xlsx_export_spec :
    (∀ accounts : List Account,
      accountsSheetData accounts = accounts.map (fun account =>
        { cuenta := account.name,
          ingresos := (calculateAccountSummary account).income,
          gastos := (calculateAccountSummary account).expense,
          balance := (calculateAccountSummary account).balance })) ∧
    (∀ account : Account,
      (transactionsSheetData account).length = account.transactions.length ∧
      (∀ (k : ℕ) (t : Transaction), account.transactions[k]? = some t →
        (transactionsSheetData account)[k]? =
          some { transaccion := t.description,
                 saldo := ((account.transactions.take (k + 1)).map signedAmount).sum })) ∧
    (∀ account : Account,
      (sheetNameFor account).toList.length ≤ 31 ∧
      (∀ c ∈ (sheetNameFor account).toList, c ∉ illegalSheetChars) ∧
      (sheetNameFor account).toList.Sublist account.name.toList) := by
  refine ⟨?_, ?_, ?_⟩
  · intro accounts
    rfl
  · intro account
    refine ⟨txRows_length account.transactions 0, ?_⟩
    intro k t h
    have := txRows_getElem account.transactions 0 k t h
    rw [transactionsSheetData, this, zero_add]
  · intro account
    refine ⟨?_, ?_, ?_⟩
    · simp [sheetNameFor]
    · intro c hc
      simp only [sheetNameFor] at hc
      have hmem := List.mem_of_mem_take hc
      have := List.of_mem_filter hmem
      simpa using this
    · exact ((List.take_sublist _ _).trans (List.filter_sublist _))

/-- Witness for C7: in a concrete account with transactions INCOME 1000,
EXPENSE 200, INCOME 50, the third sheet row carries running balance 850, via
`xlsx_export_spec`. -/
theorem xlsx_export_spec_witness :
    (transactionsSheetData
      { id := "c1", name := "Checking", transactions :=
        [{ id := "t1", description := "salary", amount := 1000, date := "d1",
           type := TransactionType.income },
         { id := "t2", description := "rent", amount := 200, date := "d2",
           type := TransactionType.expense },
         { id := "t3", description := "gift", amount := 50, date := "d3",
           type := TransactionType.income }] })[2]? =
      some { transaccion := "gift", saldo := 850 } := by
  have h := (xlsx_export_spec.2.1
    { id := "c1", name := "Checking", transactions :=
      [{ id := "t1", description := "salary", amount := 1000, date := "d1",
         type := TransactionType.income },
       { id := "t2", description := "rent", amount := 200, date := "d2",
         type := TransactionType.expense },
       { id := "t3", description := "gift", amount := 50, date := "d3",
         type := TransactionType.income }] }).2 2
    { id := "t3", description := "gift", amount := 50, date := "d3",
      type := TransactionType.income } rfl
  rw [h]
  norm_num [signedAmount]
  rw [if_neg (by decide : ¬(TransactionType.expense = TransactionType.income))]
  norm_num

/-! ### Transaction-form validation, from `src/components/TransactionForm.tsx`.
JS numbers returned by `parseFloat` are modelled as `JsNum`: NaN, the two
infinities, or an exact rational (the rounding of a decimal literal to
binary64 never changes its sign or NaN-ness for literals in the double's
range, which is all this claim depends on). -/

inductive JsNum where
  | nan
  | posInf
  | negInf
  | fin (q : ℚ)
deriving DecidableEq

def jsIsNaN : JsNum → Bool
  | JsNum.nan => true
  | _ => false

/-- JS `n <= 0` (false on NaN). -/
def jsLeZero : JsNum → Bool
  | JsNum.nan => false
  | JsNum.posInf => false
  | JsNum.negInf => true
  | JsNum.fin q => decide (q ≤ 0)

/-- The numeric value of a digit run. -/
def digitsToNat (ds : List Char) : ℕ :=
  ds.foldl (fun n c => 10 * n + (c.toNat - Char.toNat '0')) 0

/-- An optional exponent part `e`/`E` with optional sign; ignored (0) when no
digits follow, as `parseFloat` then stops before the `e`. -/
def parseExpAfter (cs : List Char) : ℤ :=
  match cs with
  | 'e' :: rest | 'E' :: rest =>
    let signAndRest : ℤ × List Char :=
      match rest with
      | '+' :: r => (1, r)
      | '-' :: r => (-1, r)
      | r => (1, r)
    let ds := signAndRest.2.takeWhile Char.isDigit
    if ds.isEmpty then 0 else signAndRest.1 * (digitsToNat ds : ℤ)
  | _ => 0

/-- The unsigned decimal mantissa: digits, digits.digits, or .digits; `none`
when no digits occur (`parseFloat` yields NaN then). Returns the value and the
remaining characters. -/
def parseMantissa (cs : List Char) : Option (ℚ × List Char) :=
  let intDs := cs.takeWhile Char.isDigit
  let rest1 := cs.drop intDs.length
  if intDs.isEmpty then
    match rest1 with
    | '.' :: r2 =>
      let fracDs := r2.takeWhile Char.isDigit
      if fracDs.isEmpty then none
      else some ((digitsToNat fracDs : ℚ) / (10 : ℚ) ^ fracDs.length,
        r2.drop fracDs.length)
    | _ => none
  else
    match rest1 with
    | '.' :: r2 =>
      let fracDs := r2.takeWhile Char.isDigit
      some ((digitsToNat intDs : ℚ) + (digitsToNat fracDs : ℚ) / (10 : ℚ) ^ fracDs.length,
        r2.drop fracDs.length)
    | _ => some ((digitsToNat intDs : ℚ), rest1)

/-- The body of `parseFloat` after the optional sign: `Infinity`, or a decimal
mantissa with optional exponent; NaN when neither matches. -/
def parseFloatBody (cs : List Char) (neg : Bool) : JsNum :=
  if "Infinity".toList.isPrefixOf cs then
    (if neg then JsNum.negInf else JsNum.posInf)
  else
    match parseMantissa cs with
    | none => JsNum.nan
    | some (m, rest) =>
      let v := m * (10 : ℚ) ^ parseExpAfter rest
      JsNum.fin (if neg then -v else v)

/-- JS `parseFloat`: skip leading whitespace, optional sign, then the longest
prefix that is a decimal literal or `Infinity`; NaN when no such prefix
exists.  Trailing characters are ignored. -/
def parseFloat (s : String) : JsNum :=
  match s.toList.dropWhile Char.isWhitespace with
  | '-' :: r => parseFloatBody r true
  | '+' :: r => parseFloatBody r false
  | r => parseFloatBody r false

structure FormErrors where
  description : Option String
  amount : Option String
deriving DecidableEq

/-- Embeds `validate` (src/components/TransactionForm.tsx lines 108-119): a
description error when the trimmed description is empty, an amount error when
`parseFloat(amount)` is NaN or `<= 0`. -/
def validate (description amount : String) : FormErrors :=
  { description :=
      if jsTrim description = "" then some "La descripción es obligatoria." else none,
    amount :=
      if jsIsNaN (parseFloat amount) || jsLeZero (parseFloat amount) then
        some "El monto debe ser un número positivo."
      else none }

/-- `validate` returns true iff no error key was set (line 118). -/
def validatePasses (description amount : String) : Bool :=
  (validate description amount).description == none &&
    (validate description amount).amount == none

/-- Embeds `handleSubmit` (src/components/TransactionForm.tsx lines 121-128):
no submission when validation fails, otherwise the description and the parsed
amount are passed to `onSubmit`. -/
def handleSubmit (description amount : String) : Option (String × JsNum) :=
  if validatePasses description amount then some (description, parseFloat amount)
  else none

/-- Counterexample to C8 as stated: with amount `"Infinity"` the form submits
although the amount does not parse to a finite number — the validation only
rejects NaN and nonpositive values, and positive infinity is neither. -/
theorem validate_accepts_infinity :
    (handleSubmit "Pago" "Infinity").isSome = true ∧
    parseFloat "Infinity" = JsNum.posInf := by decide

/-- The spec-side reading of "the amount parses to a positive number": NaN
excluded, positive infinity included. -/
def isPositiveJsNum : JsNum → Prop
  | JsNum.posInf => True
  | JsNum.fin q => 0 < q
  | _ => False

/-- C8 amended: the form submits iff the description is non-empty after
trimming and the amount parses to a positive number (positive infinity
included, NaN and nonpositive values rejected); on validation failure an
inline error message is set and nothing is submitted; a successful submission
passes exactly the description and the parsed amount. -/
theorem form_validation_spec (d a : String) :
    ((handleSubmit d a).isSome = true ↔
      (jsTrim d ≠ "" ∧ isPositiveJsNum (parseFloat a))) ∧
    (handleSubmit d a = none →
      ((validate d a).description ≠ none ∨ (validate d a).amount ≠ none)) ∧
    (handleSubmit d a = some (d, parseFloat a) ∨ handleSubmit d a = none) := by
  have hnum : (jsIsNaN (parseFloat a) || jsLeZero (parseFloat a)) = false ↔
      isPositiveJsNum (parseFloat a) := by
    cases h : parseFloat a <;>
      simp [jsIsNaN, jsLeZero, isPositiveJsNum]
  refine ⟨?_, ?_, ?_⟩
  · rw [handleSubmit, validatePasses, validate]
    by_cases hd : jsTrim d = "" <;>
      cases hn : (jsIsNaN (parseFloat a) || jsLeZero (parseFloat a)) <;>
        simp [hd, hn, ← hnum]
  · intro hnone
    by_contra hcon
    push_neg at hcon
    obtain ⟨h1, h2⟩ := hcon
    rw [validate] at h1 h2
    simp only at h1 h2
    have hd : ¬(jsTrim d = "") := by
      intro h
      rw [if_pos h] at h1
      exact Option.noConfusion h1
    have hn : ¬((jsIsNaN (parseFloat a) || jsLeZero (parseFloat a)) = true) := by
      intro h
      rw [if_pos h] at h2
      exact Option.noConfusion h2
    have hpass : validatePasses d a = true := by
      rw [validatePasses, validate]
      simp only
      rw [if_neg hd, if_neg hn]
      rfl
    rw [handleSubmit, if_pos hpass] at hnone
    exact Option.noConfusion hnone
  · rw [handleSubmit]
    by_cases hp : validatePasses d a = true
    · left
      rw [if_pos hp]
    · right
      rw [if_neg hp]

/-- Witness for C8 amended: an empty description and empty amount are not
submitted and leave an inline error message, via `form_validation_spec`. -/
theorem form_validation_spec_witness :
    (validate "" "").description ≠ none ∨ (validate "" "").amount ≠ none :=
  (form_validation_spec "" "").2.1 (by decide)

/-! ### Persistence mirroring, from `src/App.tsx` lines 71-72 and the
`setAccounts`/`setSelectedAccountId` call sites.  The accounts state is held by
`useLocalStorage` (write-through to the store); the selected-account id is held
by a plain `useState` (line 72), so it never reaches the store. -/

def encodeType : TransactionType → Json
  | TransactionType.income => Json.str "income"
  | TransactionType.expense => Json.str "expense"

def encodeTransaction (t : Transaction) : Json :=
  Json.obj [("id", Json.str t.id), ("description", Json.str t.description),
            ("amount", Json.num t.amount), ("date", Json.str t.date),
            ("type", encodeType t.type)]

def encodeAccount (a : Account) : Json :=
  Json.obj [("id", Json.str a.id), ("name", Json.str a.name),
            ("transactions", Json.arr (a.transactions.map encodeTransaction))]

def encodeAccounts (l : List Account) : Json := Json.arr (l.map encodeAccount)

/-- The application state: the two React states of `App` plus the persistent
store. -/
structure AppState where
  accounts : List Account
  selectedAccountId : Option String
  store : Store

/-- Modelled from the spec: the `useLocalStorage` hook (imported from
`./hooks/useLocalStorage`, a repository file not present under `src/`) — the
spec's Persistence Adapter "writes a named value to a durable key-value store,
transparently serializing", with the Domain Model "mirrored to the Persistence
Adapter on every change"; so every `setAccounts` stores the serialized new
accounts list under the fixed key `accounts`. -/
def setAccountsMirrored (s : AppState) (newAccounts : List Account) : AppState :=
  { s with accounts := newAccounts,
           store := setItem s.store "accounts" (encodeAccounts newAccounts) }

/-- The state-mutating user actions of `App` (each constructor is one
`setAccounts`/`setSelectedAccountId` call site; `newId`/`newDate` stand for
the generated uuid and timestamp, and confirmation-guarded deletes are taken
as confirmed). -/
inductive Action where
  | addAccount (newId name : String)
  | updateAccount (editId name : String)
  | deleteAccountConfirmed (accountId : String)
  | selectAccount (accountId : String)
  | addTransaction (ttype : TransactionType) (data : TxFormData) (newId newDate : String)
  | editTransaction (tte : Transaction) (data : TxFormData)
  | deleteTransactionConfirmed (accountId transactionId : String)
  | reorderAccounts (activeId overId : String)
  | reorderTransactions (accountId activeId overId : String)

/-- One step of `App`'s state: the handlers of src/App.tsx lines 176-289
applied to the current state, with every accounts update mirrored through
`useLocalStorage` and selection updates held in memory only. -/
def applyAction (s : AppState) (act : Action) : AppState :=
  match act with
  | Action.addAccount newId name =>
    setAccountsMirrored s (handleAddAccount s.accounts newId name)
  | Action.updateAccount editId name =>
    setAccountsMirrored s
      (s.accounts.map (fun acc => if acc.id == editId then { acc with name := name } else acc))
  | Action.deleteAccountConfirmed accountId =>
    let s2 := setAccountsMirrored s (s.accounts.filter (fun acc => acc.id != accountId))
    if s.selectedAccountId = some accountId then { s2 with selectedAccountId := none }
    else s2
  | Action.selectAccount accountId =>
    { s with selectedAccountId := some accountId }
  | Action.addTransaction ttype data newId newDate =>
    setAccountsMirrored s
      (handleAddOrUpdateTransaction s.accounts s.selectedAccountId none ttype data newId newDate)
  | Action.editTransaction tte data =>
    setAccountsMirrored s
      (handleAddOrUpdateTransaction s.accounts s.selectedAccountId (some tte) tte.type data "" "")
  | Action.deleteTransactionConfirmed accountId transactionId =>
    setAccountsMirrored s
      (s.accounts.map (fun acc =>
        if acc.id == accountId then
          { acc with transactions := acc.transactions.filter (fun t => t.id != transactionId) }
        else acc))
  | Action.reorderAccounts activeId overId =>
    setAccountsMirrored s (handleReorderAccounts s.accounts activeId overId)
  | Action.reorderTransactions accountId activeId overId =>
    setAccountsMirrored s (handleReorderTransactions s.accounts accountId activeId overId)

/-- Counterexample to C9 as stated: selecting an account is a completed state
mutation after which the store's secondary key still does not hold the
selected id — `selectedAccountId` lives in a plain `useState` (App.tsx line
72) and is never mirrored. -/
theorem selected_id_not_mirrored_counterexample :
    (applyAction { accounts := [], selectedAccountId := none, store := emptyStore }
      (Action.selectAccount "a1")).selectedAccountId = some "a1" ∧
    (applyAction { accounts := [], selectedAccountId := none, store := emptyStore }
      (Action.selectAccount "a1")).store "selectedAccountId" = none :=
  ⟨rfl, rfl⟩

/-- C9 amended: after every completed state mutation the store holds the
serialized in-memory accounts list under the fixed key `accounts` (an
invariant every action preserves and every accounts-mutating action
re-establishes), while the secondary `selectedAccountId` key is written by no
application action — the in-memory selection is not persisted (only import
writes that key). -/
theorem persistence_mirror_spec (s : AppState) (act : Action) :
    (s.store "accounts" = some (encodeAccounts s.accounts) →
      (applyAction s act).store "accounts" =
        some (encodeAccounts (applyAction s act).accounts)) ∧
    (applyAction s act).store "selectedAccountId" = s.store "selectedAccountId" := by
  have hk : ¬(("selectedAccountId" : String) = "accounts") := by decide
  cases act with
  | selectAccount accountId => exact ⟨fun h => h, rfl⟩
  | deleteAccountConfirmed accountId =>
    by_cases hsel : s.selectedAccountId = some accountId <;>
      simp [applyAction, hsel, setAccountsMirrored, setItem, hk]
  | addAccount newId name =>
    simp [applyAction, setAccountsMirrored, setItem, hk]
  | updateAccount editId name =>
    simp [applyAction, setAccountsMirrored, setItem, hk]
  | addTransaction ttype data newId newDate =>
    simp [applyAction, setAccountsMirrored, setItem, hk]
  | editTransaction tte data =>
    simp [applyAction, setAccountsMirrored, setItem, hk]
  | deleteTransactionConfirmed accountId transactionId =>
    simp [applyAction, setAccountsMirrored, setItem, hk]
  | reorderAccounts activeId overId =>
    simp [applyAction, setAccountsMirrored, setItem, hk]
  | reorderTransactions accountId activeId overId =>
    simp [applyAction, setAccountsMirrored, setItem, hk]

/-- Witness for C9 amended: from a mirrored empty state, adding an account
leaves the accounts key mirroring the one-account list, via
`persistence_mirror_spec`. -/
theorem persistence_mirror_spec_witness :
    (applyAction
      { accounts := [], selectedAccountId := none,
        store := setItem emptyStore "accounts" (encodeAccounts []) }
      (Action.addAccount "a1" "Ahorros")).store "accounts" =
      some (encodeAccounts
        (applyAction
          { accounts := [], selectedAccountId := none,
            store := setItem emptyStore "accounts" (encodeAccounts []) }
          (Action.addAccount "a1" "Ahorros")).accounts) :=
  (persistence_mirror_spec
    { accounts := [], selectedAccountId := none,
      store := setItem emptyStore "accounts" (encodeAccounts []) }
    (Action.addAccount "a1" "Ahorros")).1 rfl

end MisFinanzas
